import Mathlib

/-!
Verification of the part1-data-quality ingestion core (shared.py, ingest.py,
validator.py) of the ecom-analytics repository.

Shallow embedding conventions:
* Python values flowing through the pipeline are modelled by the inductive
  type Value below.  CSV cell values are always strings or nulls, but the
  validators are defined over arbitrary values, so Value also covers
  booleans, numbers, JSON arrays and JSON objects.
* Python floats are modelled by their exact rational value; datetimes are
  modelled by their epoch offset in seconds (a rational number).
* External library functions (datetime.fromisoformat, the pandas string
  parser, json.loads) are parameters of the embedded functions: the
  repository code only dispatches on their success or failure.  Their
  documented behaviour on the inputs the claims need is embedded directly
  (for example, pandas to_datetime rejects booleans with a TypeError).
* Python dicts are modelled as insertion-ordered association lists with the
  update-in-place semantics of dict assignment (setA below).
-/

set_option maxRecDepth 4000

/-- A Python runtime value as it can appear in a CSV row or JSON payload.
vfloat carries the exact rational value of the float; vdatetime carries the
epoch offset in seconds of a datetime object. -/
inductive Value where
  | vnull
  | vbool (b : Bool)
  | vint (n : Int)
  | vfloat (q : ℚ)
  | vstr (s : String)
  | vlist (l : List Value)
  | vdict (d : List (String × Value))
  | vdatetime (t : ℚ)

/-- The whitespace characters stripped by str.strip (ASCII part; the claims
only exercise ASCII input). -/
def isPySpace (c : Char) : Bool :=
  [' ', '\t', '\n', '\r', '\x0b', '\x0c'].contains c

/-- Strip isPySpace characters from both ends of a character list. -/
def stripChars (l : List Char) : List Char :=
  ((l.dropWhile isPySpace).reverse.dropWhile isPySpace).reverse

/-- Python str.strip(). -/
def pyStrip (s : String) : String :=
  String.mk (stripChars s.data)

/-- Python name.replace(BOM, ""): removes every byte-order-mark character. -/
def stripBOM (s : String) : String :=
  String.mk (s.data.filter (fun c => !(c == '\uFEFF')))

/-- shared.py sanitize_header for string input: strip the BOM, then strip
surrounding whitespace. -/
def sanitize_header (s : String) : String :=
  pyStrip (stripBOM s)

/-- Python str.lower() (ASCII case mapping; the known aliases and literals
compared against are ASCII). -/
def pyLower (s : String) : String :=
  String.mk (s.data.map Char.toLower)

/-- Python: c in s, for a single character. -/
def containsChar (s : String) (c : Char) : Bool :=
  s.data.contains c

/-- Python s.endswith(z) for a single character z. -/
def endsWithChar (s : String) (c : Char) : Bool :=
  s.data.getLast? == some c

/-- Python s[:-1]. -/
def dropLastStr (s : String) : String :=
  String.mk s.data.dropLast

/-- shared.py normalize_column_name applied to an already sanitized header
(the function first sanitizes its argument; ncn_core is the alias dispatch
on the sanitized string). -/
def ncn_core (raw : String) : String :=
  let lower := pyLower raw
  if lower = "clientid" ∨ lower = "client_id" ∨ raw = "clientId" then "client_id"
  else if lower = "eventname" ∨ lower = "event_name" ∨ raw = "eventName" then "event_name"
  else if lower = "eventdata" ∨ lower = "event_data" ∨ raw = "eventData" then "event_data"
  else if lower = "pageurl" ∨ lower = "page_url" ∨ raw = "pageUrl" then "page_url"
  else if lower = "useragent" ∨ lower = "user_agent" ∨ raw = "userAgent" then "user_agent"
  else if lower = "referrer" then "referrer"
  else if lower = "timestamp" then "timestamp"
  else if lower = "date" then "date"
  else if lower = "time" then "time"
  else raw

/-- shared.py normalize_column_name. -/
def normalize_column_name (name : String) : String :=
  ncn_core (sanitize_header name)

/-- The known alias spellings of shared.py normalize_column_name, given as
pairs of a lower-cased alias and its canonical column name.  Used to state
the header-alias claim. -/
def known_aliases : List (String × String) :=
  [("clientid", "client_id"), ("client_id", "client_id"),
   ("eventname", "event_name"), ("event_name", "event_name"),
   ("eventdata", "event_data"), ("event_data", "event_data"),
   ("pageurl", "page_url"), ("page_url", "page_url"),
   ("useragent", "user_agent"), ("user_agent", "user_agent"),
   ("referrer", "referrer"), ("timestamp", "timestamp"),
   ("date", "date"), ("time", "time")]

/-- shared.py EXPECTED_HEADERS. -/
def EXPECTED_HEADERS : List String :=
  ["client_id", "page_url", "referrer", "timestamp", "event_name", "event_data", "user_agent"]

/-- shared.py CORE_HEADERS. -/
def CORE_HEADERS : List String :=
  ["client_id", "page_url", "timestamp", "event_name", "event_data", "user_agent"]

/-- shared.py choose_value: keep the existing value unless it is None or a
whitespace-only string, in which case take the candidate.  A missing dict
entry is represented by vnull (dict.get returns None for it). -/
def choose_value : Value → Value → Value
  | .vnull, c => c
  | .vstr s, c => if pyStrip s = "" then c else .vstr s
  | e, _ => e

/-- True exactly when choose_value keeps the value against any candidate:
the value is neither null nor an empty / whitespace-only string. -/
def keepsValue : Value → Bool
  | .vnull => false
  | .vstr s => !(pyStrip s == "")
  | _ => true

/-- Python truthiness for the values that can appear in a CSV cell. -/
def pyTruthy : Value → Bool
  | .vnull => false
  | .vbool b => b
  | .vint n => !(n == 0)
  | .vfloat q => !(q == 0)
  | .vstr s => !(s == "")
  | .vlist l => !l.isEmpty
  | .vdict d => !d.isEmpty
  | .vdatetime _ => true

/-- Python str() for the scalar values a CSV cell can hold (exact for the
strings and nulls that actually reach the f-string in normalize_row; the
container cases are never produced by the CSV readers). -/
def pyStr : Value → String
  | .vstr s => s
  | .vnull => "None"
  | .vbool true => "True"
  | .vbool false => "False"
  | .vint n => toString n
  | .vfloat q => toString q
  | .vlist _ => "[...]"
  | .vdict _ => "{...}"
  | .vdatetime t => toString t

/-- Lookup in an insertion-ordered association list (Python dict lookup). -/
def getA : List (String × Value) → String → Option Value
  | [], _ => none
  | (k, v) :: t, key => if k = key then some v else getA t key

/-- Python: key in dict. -/
def memA (l : List (String × Value)) (key : String) : Bool :=
  (getA l key).isSome

/-- Python dict assignment d[key] = v: updates in place, else appends. -/
def setA : List (String × Value) → String → Value → List (String × Value)
  | [], key, v => [(key, v)]
  | (k, w) :: t, key, v => if k = key then (k, v) :: t else (k, w) :: setA t key v

/-- The merge loop of shared.py normalize_row: for every (src_key, value)
pair assign normalized[norm_key] = choose_value(normalized.get(norm_key), value). -/
def mergeLoop (colMap : String → String) (row : List (String × Value))
    (acc : List (String × Value)) : List (String × Value) :=
  row.foldl (fun acc kv =>
    let nk := colMap kv.1
    setA acc nk (choose_value ((getA acc nk).getD .vnull) kv.2)) acc

/-- shared.py normalize_row.  The column map is modelled as a total function
(the dict lookup with normalize_column_name fallback of the source). -/
def normalize_row (colMap : String → String) (row : List (String × Value))
    (derive_timestamp_from_date_time : Bool) : List (String × Value) :=
  let normalized := mergeLoop colMap row []
  let normalized :=
    if derive_timestamp_from_date_time && !(memA normalized "timestamp") then
      let date_part := (getA normalized "date").getD .vnull
      let time_part := (getA normalized "time").getD .vnull
      if pyTruthy date_part && pyTruthy time_part then
        setA normalized "timestamp" (.vstr (pyStr date_part ++ " " ++ pyStr time_part))
      else if pyTruthy date_part then
        setA normalized "timestamp" date_part
      else if pyTruthy time_part then
        setA normalized "timestamp" time_part
      else normalized
    else normalized
  normalized.filter (fun kv => EXPECTED_HEADERS.contains kv.1)

/-- The values of a row whose source column maps to the given target key,
in source-column order. -/
def valsFor (colMap : String → String) (row : List (String × Value)) (key : String) :
    List Value :=
  (row.filter (fun kv => colMap kv.1 == key)).map Prod.snd

/-- The date-or-time to timestamp column rename applied to a normalized
column name by iter_csv_rows when exactly one of date / time is present and
timestamp is absent (shared.py lines 266-271). -/
def rename_target (has_timestamp has_date has_time : Bool) (v : String) : String :=
  if !has_timestamp && (has_date && !has_time) then
    (if v = "date" then "timestamp" else v)
  else if !has_timestamp && (has_time && !has_date) then
    (if v = "time" then "timestamp" else v)
  else v

/-- Python set.add on a membership-ordered list model of a set. -/
def pySetAdd (l : List String) (x : String) : List String :=
  if l.contains x then l else l ++ [x]

/-- Python set(l): a list model of a set, keeping first occurrences.  Only
membership is meaningful (CPython iterates sets in hash order). -/
def pySetOfList (l : List String) : List String :=
  l.foldl pySetAdd []

/-- Python set.discard. -/
def pySetDiscard (l : List String) (x : String) : List String :=
  l.filter (fun y => !(y == x))

/-- Lexicographic comparison of character lists (Python string order by
code point). -/
def charListLe : List Char → List Char → Bool
  | [], _ => true
  | _ :: _, [] => false
  | a :: as, b :: bs => if a = b then charListLe as bs else decide (a < b)

/-- Python string comparison a <= b. -/
def strLe (a b : String) : Bool :=
  charListLe a.data b.data

/-- Insert into a sorted list of strings. -/
def insertSorted (x : String) : List String → List String
  | [] => [x]
  | y :: t => if strLe x y then x :: y :: t else y :: insertSorted x t

/-- Python sorted() on a list of strings. -/
def pySorted (l : List String) : List String :=
  l.foldr insertSorted []

/-- The per-file header report of shared.py iter_csv_rows. -/
structure HeaderReport where
  headers : List String
  normalized_headers : List String
  extra_columns : List String
  missing_core : List String

/-- shared.py iter_csv_rows, from the point where the CSV reader has
produced the raw header list and the rows of cell values (file decoding and
the polars / csv.DictReader readers are the external boundary; both yield
rows keyed by the sanitized headers).  Returns the normalized rows and the
header report. -/
def iter_csv_rows (raw_headers : List String) (cells : List (List Value)) :
    List (List (String × Value)) × HeaderReport :=
  let headers := raw_headers.map sanitize_header
  let rows := cells.map (fun c => headers.zip c)
  let normalized_headers0 := headers.map normalize_column_name
  let has_timestamp := normalized_headers0.contains "timestamp"
  let has_date := normalized_headers0.contains "date"
  let has_time := normalized_headers0.contains "time"
  let derive_timestamp_from_date_time := !has_timestamp && (has_date && has_time)
  let column_map : String → String := fun h =>
    if headers.contains h then rename_target has_timestamp has_date has_time (normalize_column_name h)
    else normalize_column_name h
  let normalized_headers := normalized_headers0.map (rename_target has_timestamp has_date has_time)
  let normalized_rows := rows.map (fun r => normalize_row column_map r derive_timestamp_from_date_time)
  let effective0 := pySetOfList normalized_headers
  let effective_header_set :=
    if derive_timestamp_from_date_time then
      pySetDiscard (pySetDiscard (pySetAdd effective0 "timestamp") "date") "time"
    else effective0
  let extra_columns := pySorted (effective_header_set.filter (fun c => !(EXPECTED_HEADERS.contains c)))
  let missing_core := pySorted (CORE_HEADERS.filter (fun c => !(effective_header_set.contains c)))
  (normalized_rows,
   { headers := headers
     normalized_headers := pySorted effective_header_set
     extra_columns := extra_columns
     missing_core := missing_core })

/-- An exception escaping a pydantic field validator: a ValueError becomes a
field validation error, any other exception type (here a TypeError from
pandas) propagates out of model_validate uncaught. -/
inductive VErr where
  | valErr (msg : String)
  | typeErr (msg : String)

/-- Python isinstance(value, (int, float)): true for booleans as well,
because bool is a subclass of int. -/
def isinstance_int_float : Value → Bool
  | .vint _ => true
  | .vfloat _ => true
  | .vbool _ => true
  | _ => false

/-- The Python numeric value of an int / float / bool. -/
def pyNumVal : Value → ℚ
  | .vint n => (n : ℚ)
  | .vfloat q => q
  | .vbool b => if b then 1 else 0
  | _ => 0

/-- The epoch-unit heuristic of shared.py line 73:
unit = "ms" if value > 10_000_000_000 else "s". -/
def epochUnit (q : ℚ) : String :=
  if q > 10000000000 then "ms" else "s"

/-- The representable range of a pandas datetime64[ns]: the epoch offset in
nanoseconds must fit a 64-bit signed integer. -/
def in_dt64_bounds (secs : ℚ) : Bool :=
  decide (-(9223372036854775808 : ℚ) ≤ secs * 1000000000 ∧
          secs * 1000000000 ≤ (9223372036854775807 : ℚ))

/-- pandas pd.to_datetime(value, unit=unit, errors="raise") on a Python
int / float / bool.  pandas explicitly excludes booleans from its numeric
conversions (is_integer_object is false for bool) and raises
TypeError "class bool is not convertible to datetime" for them; in-range
ints and floats are converted with the given unit; out-of-range values
raise the ValueError subclass OutOfBoundsDatetime. -/
def pd_to_datetime_numeric (v : Value) (unit : String) : Except VErr Value :=
  match v with
  | .vbool _ => .error (.typeErr "class bool is not convertible to datetime")
  | _ =>
    let secs : ℚ := if unit = "ms" then pyNumVal v / 1000 else pyNumVal v
    if in_dt64_bounds secs then .ok (.vdatetime secs)
    else .error (.valErr "Out of bounds nanosecond timestamp")

/-- Python candidate.replace(" ", "T", 1): replace the first space. -/
def replace_first_space : List Char → List Char
  | [] => []
  | c :: t => if c = ' ' then 'T' :: t else c :: replace_first_space t

/-- shared.py RawEvent.normalize_timestamp.  fromiso models
datetime.fromisoformat (none = ValueError), pd_str models
pd.to_datetime(raw, errors="raise") on a string (the error carries the
pandas message, a ValueError).  Both return the parsed instant as an epoch
offset in seconds.  Note the branch order of the source: the isinstance
check for (int, float) at line 70 precedes the bool check at line 77, and
in Python a bool is an instance of int, so the bool branch is unreachable
and booleans take the numeric epoch branch. -/
def normalize_timestamp (fromiso : String → Option ℚ) (pd_str : String → Except String ℚ) :
    Value → Except VErr Value
  | .vnull => .error (.valErr "timestamp is null")
  | .vdatetime t => .ok (.vdatetime t)
  | .vstr s =>
    let raw := pyStrip s
    if raw = "" then .error (.valErr "timestamp is empty")
    else
      let candidate := if containsChar raw ' ' && !(containsChar raw 'T') then
        String.mk (replace_first_space raw.data) else raw
      let candidate := if endsWithChar candidate 'Z' then dropLastStr candidate ++ "+00:00"
        else candidate
      match fromiso candidate with
      | some t => .ok (.vdatetime t)
      | none =>
        match pd_str raw with
        | .ok t => .ok (.vdatetime t)
        | .error m => .error (.valErr m)
  | .vint n => pd_to_datetime_numeric (.vint n) (epochUnit (pyNumVal (.vint n)))
  | .vfloat q => pd_to_datetime_numeric (.vfloat q) (epochUnit (pyNumVal (.vfloat q)))
  | .vbool b => pd_to_datetime_numeric (.vbool b) (epochUnit (pyNumVal (.vbool b)))
  | v => .ok v

/-- shared.py RawEvent.parse_event_data.  loads models json.loads on the
stripped string: ok with the parsed value, or error with the decoder
message. -/
def parse_event_data (loads : String → Except String Value) : Value → Except String Value
  | .vnull => .ok (.vdict [])
  | .vdict d => .ok (.vdict d)
  | .vstr s =>
    let raw := pyStrip s
    if raw = "" then .ok (.vdict [])
    else if pyLower raw = "null" then .ok (.vdict [])
    else
      match loads raw with
      | .error m => .error ("event_data is not valid JSON: " ++ m)
      | .ok parsed =>
        match parsed with
        | .vdict d => .ok (.vdict d)
        | _ => .error "event_data JSON must be an object"
  | _ => .error "event_data must be a JSON string or dict"

/-- shared.py RawEvent.normalize_event_name: trim and lower-case strings. -/
def normalize_event_name : Value → Value
  | .vstr s => .vstr (pyLower (pyStrip s))
  | v => v

/-- The values of the EventName enumeration. -/
def event_names : List String :=
  ["page_viewed", "purchase", "checkout_started", "checkout_completed",
   "product_added_to_cart", "email_filled_on_popup"]

/-- A pydantic field error: the error location tuple and the message. -/
abbrev FieldError := List String × String

/-- Validation of the required str fields client_id, page_url, user_agent
under pydantic v2: a missing key gives Field required; the declared type
str rejects null and non-string input before the (mode after) validator
non_empty_string runs; the validator then strips and rejects empty
strings with a ValueError, which pydantic reports with a Value error
prefix. -/
def required_str_field (row : List (String × Value)) (name : String) :
    List FieldError ⊕ String :=
  match getA row name with
  | none => .inl [([name], "Field required")]
  | some (.vstr s) =>
    let t := pyStrip s
    if t = "" then .inl [([name], "Value error, required field is empty")]
    else .inr t
  | some _ => .inl [([name], "Input should be a valid string")]

/-- Validation of the timestamp field: the mode-before validator
normalize_timestamp runs on the raw value; a ValueError becomes a field
error, any other exception (the pandas TypeError on booleans) propagates
out of model_validate (the outer Except); a returned non-datetime value is
rejected by the datetime core schema. -/
def timestamp_field (fromiso : String → Option ℚ) (pd_str : String → Except String ℚ)
    (row : List (String × Value)) : Except String (List FieldError ⊕ ℚ) :=
  match getA row "timestamp" with
  | none => .ok (.inl [(["timestamp"], "Field required")])
  | some v =>
    match normalize_timestamp fromiso pd_str v with
    | .error (.typeErr m) => .error m
    | .error (.valErr m) => .ok (.inl [(["timestamp"], "Value error, " ++ m)])
    | .ok (.vdatetime t) => .ok (.inr t)
    | .ok _ => .ok (.inl [(["timestamp"], "Input should be a valid datetime")])

/-- Validation of the event_name field: the mode-before validator trims and
lower-cases strings, then the EventName enumeration accepts exactly its
member strings. -/
def event_name_field (row : List (String × Value)) : List FieldError ⊕ String :=
  match getA row "event_name" with
  | none => .inl [(["event_name"], "Field required")]
  | some v =>
    match normalize_event_name v with
    | .vstr s =>
      if event_names.contains s then .inr s
      else .inl [(["event_name"], "Input should be one of the EventName values")]
    | _ => .inl [(["event_name"], "Input should be one of the EventName values")]

/-- Validation of the event_data field: the mode-before validator
parse_event_data runs on the raw value; its ValueError messages are
reported with a Value error prefix; on success the parsed value is a dict
and satisfies the declared dict type. -/
def event_data_field (loads : String → Except String Value)
    (row : List (String × Value)) : List FieldError ⊕ Value :=
  match getA row "event_data" with
  | none => .inl [(["event_data"], "Field required")]
  | some v =>
    match parse_event_data loads v with
    | .error m => .inl [(["event_data"], "Value error, " ++ m)]
    | .ok d => .inr d

/-- Validation of the optional referrer field: absent or null yields None,
strings pass through, anything else fails the declared Optional[str]. -/
def referrer_field (row : List (String × Value)) : List FieldError ⊕ Option String :=
  match getA row "referrer" with
  | none => .inr none
  | some .vnull => .inr none
  | some (.vstr s) => .inr (some s)
  | some _ => .inl [(["referrer"], "Input should be a valid string")]

/-- The errors contributed by one field result. -/
def errsOf {α : Type} : List FieldError ⊕ α → List FieldError
  | .inl e => e
  | .inr _ => []

/-- A fully validated event record (shared.py RawEvent after validation). -/
structure Record where
  client_id : String
  timestamp : ℚ
  event_name : String
  event_data : Value
  page_url : String
  referrer : Option String
  user_agent : String

/-- pydantic RawEvent.model_validate over a row dict: every field is
validated independently in field declaration order and all field errors
are collected; a non-ValueError exception raised inside a validator (the
pandas TypeError on a boolean timestamp) aborts validation and propagates
(the outer Except).  On success all typed fields are assembled
all-or-nothing into a Record. -/
def model_validate (fromiso : String → Option ℚ) (pd_str : String → Except String ℚ)
    (loads : String → Except String Value) (row : List (String × Value)) :
    Except String (Except (List FieldError) Record) := do
  let c := required_str_field row "client_id"
  let t ← timestamp_field fromiso pd_str row
  let en := event_name_field row
  let ed := event_data_field loads row
  let p := required_str_field row "page_url"
  let r := referrer_field row
  let u := required_str_field row "user_agent"
  match c, t, en, ed, p, r, u with
  | .inr cv, .inr tv, .inr env, .inr edv, .inr pv, .inr rv, .inr uv =>
    pure (.ok { client_id := cv, timestamp := tv, event_name := env,
                event_data := edv, page_url := pv, referrer := rv, user_agent := uv })
  | c, t, en, ed, p, r, u =>
    pure (.error (errsOf c ++ errsOf t ++ errsOf en ++ errsOf ed ++
                  errsOf p ++ errsOf r ++ errsOf u))

/-- ingest.py / validator.py error summarisation of one pydantic error:
join the location tuple with dots; prefix the message with it when the
location is non-empty, else emit the bare message. -/
def summarize_error (e : FieldError) : String :=
  let loc := String.intercalate "." e.1
  if loc = "" then e.2 else loc ++ ": " ++ e.2

/-- The error_reason string of a quarantine row: one summarised message per
collected field error, joined with the fixed separator. -/
def error_reason (errs : List FieldError) : String :=
  String.intercalate " | " (errs.map summarize_error)

/-- The row loop shared by ingest.py and validator.py main: validate each
row, counting passes and failures; a ValidationError is caught and counted
as a quarantined row, any other exception (outer Except) is fatal. -/
def row_counts (fromiso : String → Option ℚ) (pd_str : String → Except String ℚ)
    (loads : String → Except String Value) (rows : List (List (String × Value)))
    (acc : Nat × Nat) : Except String (Nat × Nat) :=
  rows.foldlM (fun (acc : Nat × Nat) row => do
    match (← model_validate fromiso pd_str loads row) with
    | .ok _record => pure (acc.1 + 1, acc.2)
    | .error _errs => pure (acc.1, acc.2 + 1)) acc

/-- The RunLogEntry status computation of ingest.py lines 130-134:
COMPLETED by default, partial_failure when both counts are positive,
FAILED when only the quarantine count is. -/
def run_status (rows_inserted rows_quarantined : Nat) : String :=
  if 0 < rows_quarantined ∧ 0 < rows_inserted then "partial_failure"
  else if 0 < rows_quarantined ∧ rows_inserted = 0 then "FAILED"
  else "COMPLETED"

/-- The per-file processing of ingest.py main: read and normalize the rows,
validate each row, count inserted and quarantined rows (rows_inserted is
the length of the valid batch, zero when it is empty) and compute the
RunLogEntry status.  Returns (rows_read, rows_inserted, rows_quarantined,
status). -/
def process_file (fromiso : String → Option ℚ) (pd_str : String → Except String ℚ)
    (loads : String → Except String Value)
    (raw_headers : List String) (cells : List (List Value)) :
    Except String (Nat × Nat × Nat × String) := do
  let counts ← row_counts fromiso pd_str loads (iter_csv_rows raw_headers cells).1 (0, 0)
  pure ((iter_csv_rows raw_headers cells).1.length, counts.1, counts.2,
        run_status counts.1 counts.2)

/-- validator.py main (the dry-run command) over the list of input files,
each given as raw headers plus rows of cell values: accumulates the
pass / fail counts across all files and returns them together with the
process exit status, which the source computes as the constant 0
(validator.py line 78: return 0). -/
def validator_main (fromiso : String → Option ℚ) (pd_str : String → Except String ℚ)
    (loads : String → Except String Value)
    (files : List (List String × List (List Value))) :
    Except String (Nat × Nat × Nat) := do
  let counts ← files.foldlM (fun (acc : Nat × Nat) file =>
    row_counts fromiso pd_str loads (iter_csv_rows file.1 file.2).1 acc) ((0, 0) : Nat × Nat)
  pure (counts.1, counts.2, 0)

/-- Sample ISO parser used to instantiate the parser-parameterised theorems
in witnesses: accepts one fixed ISO string. -/
def sample_fromiso : String → Option ℚ :=
  fun s => if s = "2024-01-02T03:04:05" then some 1704164645 else none

/-- Sample permissive string parser for witnesses: always fails with a
pandas-style message. -/
def sample_pd_str : String → Except String ℚ :=
  fun s => .error ("Unknown datetime string format, unable to parse: " ++ s)

/-- Sample JSON parser for witnesses: recognises a fixed array literal and
a fixed object literal, fails on everything else. -/
def sample_loads : String → Except String Value :=
  fun s =>
    if s = "[1, 2]" then .ok (.vlist [.vint 1, .vint 2])
    else if s = "{}" then .ok (.vdict [])
    else .error "Expecting value"

/-- Discriminator: is the value a boolean. -/
def isBoolV : Value → Bool
  | .vbool _ => true
  | _ => false

/-- Discriminator: is the value a dict (JSON object). -/
def isDictV : Value → Bool
  | .vdict _ => true
  | _ => false

/-- Discriminator: is the value a string. -/
def isStrV : Value → Bool
  | .vstr _ => true
  | _ => false

/-- Discriminator: is the value null. -/
def isNullV : Value → Bool
  | .vnull => true
  | _ => false


/-! ## Theorems -/

/-- C1: a boolean timestamp never reaches the dead isinstance bool check of
shared.py line 77; Python booleans satisfy isinstance(value, (int, float)),
so they enter the pandas epoch branch, where pandas raises a TypeError.
pydantic v2 converts only ValueError and AssertionError raised inside
validators into validation errors, so the TypeError escapes model_validate:
the row is neither validated nor quarantined — the whole run aborts.  This
contradicts the claim (and the intent evidenced by the unreachable bool
branch) that a boolean timestamp yields a quarantine record with a
timestamp error. -/
theorem spec_c1_bool_timestamp_aborts (fromiso : String → Option ℚ)
    (pd_str : String → Except String ℚ) (loads : String → Except String Value)
    (row : List (String × Value)) (b : Bool)
    (h : getA row "timestamp" = some (.vbool b)) :
    model_validate fromiso pd_str loads row =
      .error "class bool is not convertible to datetime" := by
  simp [model_validate, timestamp_field, h, normalize_timestamp,
    pd_to_datetime_numeric, Bind.bind, Except.bind]

/-- C1 witness: the abort at the concrete failing input, a row whose
timestamp cell holds the boolean True. -/
theorem spec_c1_witness :
    model_validate sample_fromiso sample_pd_str sample_loads
      [("timestamp", .vbool true)] =
      .error "class bool is not convertible to datetime" :=
  spec_c1_bool_timestamp_aborts _ _ _ _ true rfl

/-- C2 counterexample: a dry run over one file with a single row that fails
validation returns failed = 1 together with process exit status 0, not the
exit status 1 the claim requires. -/
theorem spec_c2_counterexample :
    ¬ (∀ p f e, validator_main sample_fromiso sample_pd_str sample_loads
        [(["client_id", "page_url", "timestamp", "event_name", "event_data",
           "user_agent", "referrer"],
          [[Value.vnull, .vnull, .vnull, .vnull, .vnull, .vnull, .vnull]])] =
          .ok (p, f, e) → 0 < f → e = 1) := by
  intro hclaim
  have h := hclaim 0 1 0 rfl (by decide)
  exact absurd h (by decide)

/-- C2 (amended): the dry-run command of validator.py returns the constant
process exit status 0 regardless of how many rows failed validation
(validator.py line 78); only an uncaught exception would exit non-zero. -/
theorem spec_c2_exit_always_zero (fromiso : String → Option ℚ)
    (pd_str : String → Except String ℚ) (loads : String → Except String Value)
    (files : List (List String × List (List Value))) (p f e : Nat)
    (h : validator_main fromiso pd_str loads files = .ok (p, f, e)) : e = 0 := by
  unfold validator_main at h
  cases hc : files.foldlM (fun (acc : Nat × Nat) file =>
      row_counts fromiso pd_str loads (iter_csv_rows file.1 file.2).1 acc)
      ((0, 0) : Nat × Nat) with
  | error m =>
    rw [hc] at h
    simp [Bind.bind, Except.bind] at h
  | ok counts =>
    rw [hc] at h
    simp only [Bind.bind, Except.bind, pure, Except.pure, Except.ok.injEq] at h
    exact (congrArg (fun x : Nat × Nat × Nat => x.2.2) h).symm

/-- C2 witness: the amended theorem applied at the concrete dry run of the
counterexample file. -/
theorem spec_c2_witness : (0 : Nat) = 0 :=
  spec_c2_exit_always_zero sample_fromiso sample_pd_str sample_loads
    [(["client_id", "page_url", "timestamp", "event_name", "event_data",
       "user_agent", "referrer"],
      [[Value.vnull, .vnull, .vnull, .vnull, .vnull, .vnull, .vnull]])]
    0 1 0 rfl

/-- C3: for every processed file the RunLogEntry status is FAILED exactly
when the quarantined count is positive and the inserted count is zero,
partial_failure exactly when both counts are positive, and COMPLETED
otherwise; a file yielding zero rows gets COMPLETED with zero counts. -/
theorem spec_c3_status (fromiso : String → Option ℚ) (pd_str : String → Except String ℚ)
    (loads : String → Except String Value) (raw_headers : List String)
    (cells : List (List Value)) (r i q : Nat) (st : String)
    (h : process_file fromiso pd_str loads raw_headers cells = .ok (r, i, q, st)) :
    ((st = "FAILED" ↔ 0 < q ∧ i = 0) ∧
     (st = "partial_failure" ↔ 0 < q ∧ 0 < i) ∧
     (st = "COMPLETED" ↔ q = 0)) ∧
    process_file fromiso pd_str loads raw_headers [] = .ok (0, 0, 0, "COMPLETED") := by
  refine ⟨?_, rfl⟩
  unfold process_file at h
  cases hc : row_counts fromiso pd_str loads (iter_csv_rows raw_headers cells).1 (0, 0) with
  | error m =>
    rw [hc] at h
    simp [Bind.bind, Except.bind] at h
  | ok counts =>
    rw [hc] at h
    simp only [Bind.bind, Except.bind, pure, Except.pure, Except.ok.injEq] at h
    have hi : counts.1 = i := congrArg (fun x : Nat × Nat × Nat × String => x.2.1) h
    have hq : counts.2 = q := congrArg (fun x : Nat × Nat × Nat × String => x.2.2.1) h
    have hst : run_status counts.1 counts.2 = st :=
      congrArg (fun x : Nat × Nat × Nat × String => x.2.2.2) h
    rw [hi, hq] at hst
    subst hst
    unfold run_status
    split_ifs with h1 h2
    · exact ⟨iff_of_false (by decide) (fun hx => by omega),
             iff_of_true rfl h1,
             iff_of_false (by decide) (by omega)⟩
    · exact ⟨iff_of_true rfl h2,
             iff_of_false (by decide) (by omega),
             iff_of_false (by decide) (by omega)⟩
    · exact ⟨iff_of_false (by decide) (fun hx => h2 hx),
             iff_of_false (by decide) (fun hx => h1 ⟨hx.1, hx.2⟩),
             iff_of_true rfl (by omega)⟩

/-- C3 witness: a concrete file with one failing row and one passing row is
reported as partial_failure, discharging the hypotheses of spec_c3_status at
a concrete input. -/
theorem spec_c3_witness :
    ("partial_failure" = "FAILED" ↔ 0 < 1 ∧ 1 = 0) ∧
    ("partial_failure" = "partial_failure" ↔ 0 < 1 ∧ 0 < 1) ∧
    ("partial_failure" = "COMPLETED" ↔ 1 = 0) :=
  (spec_c3_status sample_fromiso sample_pd_str sample_loads
    ["client_id", "page_url", "timestamp", "event_name", "event_data", "user_agent"]
    [[.vstr "c1", .vstr "http://x", .vstr "2024-01-02T03:04:05", .vstr " Purchase ",
      .vstr "", .vstr "ua"],
     [.vstr "", .vstr "http://x", .vstr "2024-01-02T03:04:05", .vstr "purchase",
      .vstr "", .vstr "ua"]]
    2 1 1 "partial_failure" rfl).1

/-- C4 counterexample: the source decides the epoch unit with a signed
comparison (shared.py line 73), not by magnitude: for the value
-20,000,000,000, whose magnitude exceeds 10,000,000,000, the chosen unit is
seconds, while the claim requires milliseconds. -/
theorem spec_c4_counterexample :
    epochUnit (-20000000000) = "s" ∧ (10000000000 : ℚ) < |(-20000000000 : ℚ)| := by
  constructor
  · rfl
  · rw [abs_of_nonpos (by norm_num)]
    norm_num

/-- C4 (amended): for every numeric, non-boolean timestamp value the epoch
unit is milliseconds exactly when the signed value exceeds 10,000,000,000
and seconds otherwise; in particular 1700000000 is read as seconds and
1700000000000 as milliseconds, both denoting the instant 1700000000 seconds
after the epoch. -/
theorem spec_c4_epoch_unit (fromiso : String → Option ℚ)
    (pd_str : String → Except String ℚ) (v : Value)
    (hnum : isinstance_int_float v = true) (hb : isBoolV v = false) :
    (normalize_timestamp fromiso pd_str v =
      pd_to_datetime_numeric v (epochUnit (pyNumVal v))) ∧
    (epochUnit (pyNumVal v) = "ms" ↔ 10000000000 < pyNumVal v) ∧
    normalize_timestamp fromiso pd_str (.vint 1700000000) = .ok (.vdatetime 1700000000) ∧
    normalize_timestamp fromiso pd_str (.vint 1700000000000) = .ok (.vdatetime 1700000000) := by
  refine ⟨?_, ?_, ?_, ?_⟩
  · cases v <;> simp_all [isinstance_int_float, isBoolV, normalize_timestamp]
  · by_cases hq : (10000000000 : ℚ) < pyNumVal v
    · simp [epochUnit, hq]
    · simp [epochUnit, hq]
  · have hne : (("s" : String) = "ms") = False := eq_false (by decide)
    norm_num [normalize_timestamp, pd_to_datetime_numeric, epochUnit, pyNumVal,
      in_dt64_bounds, decide_eq_true_eq, hne]
  · norm_num [normalize_timestamp, pd_to_datetime_numeric, epochUnit, pyNumVal,
      in_dt64_bounds, decide_eq_true_eq]

/-- C4 witness: the amended theorem evaluated at the concrete integer
1700000000 (a non-boolean numeric), whose unit is seconds. -/
theorem spec_c4_witness :
    (epochUnit (pyNumVal (.vint 1700000000)) = "ms" ↔
      10000000000 < pyNumVal (.vint 1700000000)) ∧
    normalize_timestamp sample_fromiso sample_pd_str (.vint 1700000000) =
      .ok (.vdatetime 1700000000) :=
  have H := spec_c4_epoch_unit sample_fromiso sample_pd_str (.vint 1700000000) rfl rfl
  ⟨H.2.1, H.2.2.1⟩

/-- C7: event_data validation yields the empty object for null, for empty
or whitespace-only strings and for the literal string null in any casing;
accepts an object as-is; fails with the must-be-an-object message when a
string parses as JSON to a non-object; and fails (with the must-be-a-JSON
string-or-dict message) for every other non-string, non-object type. -/
theorem spec_c7_event_data :
    (∀ loads, parse_event_data loads .vnull = .ok (.vdict [])) ∧
    (∀ loads s, pyStrip s = "" → parse_event_data loads (.vstr s) = .ok (.vdict [])) ∧
    (∀ loads s, pyLower (pyStrip s) = "null" →
      parse_event_data loads (.vstr s) = .ok (.vdict [])) ∧
    (∀ loads d, parse_event_data loads (.vdict d) = .ok (.vdict d)) ∧
    (∀ loads s j, pyStrip s ≠ "" → pyLower (pyStrip s) ≠ "null" →
      loads (pyStrip s) = .ok j → isDictV j = false →
      parse_event_data loads (.vstr s) = .error "event_data JSON must be an object") ∧
    (∀ loads v, isStrV v = false → isDictV v = false → isNullV v = false →
      parse_event_data loads v = .error "event_data must be a JSON string or dict") := by
  refine ⟨fun loads => rfl, fun loads s hs => ?_, fun loads s hnull => ?_,
          fun loads d => rfl, fun loads s j h1 h2 hload hj => ?_,
          fun loads v h1 h2 h3 => ?_⟩
  · simp [parse_event_data, hs]
  · by_cases hr : pyStrip s = ""
    · simp [parse_event_data, hr]
    · simp [parse_event_data, hr, hnull]
  · simp only [parse_event_data, if_neg h1, if_neg h2, hload]
    cases j <;> simp_all [isDictV]
  · cases v <;> simp_all [isStrV, isDictV, isNullV, parse_event_data]

/-- C7 witness: the concrete cases with the sample JSON parser: the string
NULL yields the empty object, a string parsing to a JSON array fails with
the must-be-an-object message, and an integer input fails as a
non-string, non-object type. -/
theorem spec_c7_witness :
    parse_event_data sample_loads (.vstr " NULL ") = .ok (.vdict []) ∧
    parse_event_data sample_loads (.vstr "[1, 2]") =
      .error "event_data JSON must be an object" ∧
    parse_event_data sample_loads (.vint 3) =
      .error "event_data must be a JSON string or dict" :=
  ⟨spec_c7_event_data.2.2.1 sample_loads " NULL " rfl,
   spec_c7_event_data.2.2.2.2.1 sample_loads "[1, 2]" (.vlist [.vint 1, .vint 2])
     (by decide) (by decide) rfl rfl,
   spec_c7_event_data.2.2.2.2.2 sample_loads (.vint 3) rfl rfl rfl⟩

/-- Updating a key makes it present with the new value. -/
theorem getA_setA_self (l : List (String × Value)) (k : String) (v : Value) :
    getA (setA l k v) k = some v := by
  induction l with
  | nil => simp [setA, getA]
  | cons kv t ih =>
    obtain ⟨k0, w⟩ := kv
    by_cases hk : k0 = k
    · simp [setA, getA, hk]
    · simp [setA, getA, hk, ih]

/-- Updating one key leaves the lookup of another unchanged. -/
theorem getA_setA_ne (l : List (String × Value)) (k : String) (v : Value)
    (k2 : String) (h : k ≠ k2) : getA (setA l k v) k2 = getA l k2 := by
  induction l with
  | nil => simp [setA, getA, h]
  | cons kv t ih =>
    obtain ⟨k0, w⟩ := kv
    by_cases hk : k0 = k
    · subst hk
      simp [setA, getA, h]
    · simp [setA, getA, hk, ih]

/-- Membership after an update. -/
theorem memA_setA (l : List (String × Value)) (k : String) (v : Value) (key : String) :
    memA (setA l k v) key = (k == key || memA l key) := by
  by_cases hk : k = key
  · subst hk
    simp [memA, getA_setA_self]
  · simp [memA, getA_setA_ne l k v key hk, hk]

/-- choose_value keeps values that are neither null nor blank strings. -/
theorem choose_value_of_keeps (e c : Value) (h : keepsValue e = true) :
    choose_value e c = e := by
  cases e <;> simp_all [keepsValue, choose_value]

/-- choose_value replaces null or blank-string values by the candidate. -/
theorem choose_value_of_not_keeps (e c : Value) (h : keepsValue e = false) :
    choose_value e c = c := by
  cases e <;> simp_all [keepsValue, choose_value]

/-- Once a kept value is accumulated, the merge fold never changes it. -/
theorem foldl_choose_of_keeps (vs : List Value) (a : Value) (h : keepsValue a = true) :
    vs.foldl choose_value a = a := by
  induction vs with
  | nil => rfl
  | cons v t ih => simp [List.foldl_cons, choose_value_of_keeps a v h, ih]

/-- The merge fold starting from a non-kept value returns the first kept
value of the list when one exists. -/
theorem foldl_choose_find (vs : List Value) : ∀ a, keepsValue a = false →
    ∀ v, vs.find? keepsValue = some v → vs.foldl choose_value a = v := by
  induction vs with
  | nil => intro a ha v hv; simp [List.find?] at hv
  | cons w t ih =>
    intro a ha v hv
    rw [List.foldl_cons, choose_value_of_not_keeps a w ha]
    by_cases hw : keepsValue w = true
    · rw [List.find?_cons_of_pos _ hw] at hv
      cases hv
      exact foldl_choose_of_keeps t w hw
    · rw [List.find?_cons_of_neg _ (by simp_all)] at hv
      exact ih w (by simp_all) v hv

/-- The merge fold starting from a non-kept value over a list with no kept
value returns the last element of the list (or the start for an empty
list). -/
theorem foldl_choose_all (vs : List Value) : ∀ a, keepsValue a = false →
    (∀ v ∈ vs, keepsValue v = false) →
    vs.foldl choose_value a = vs.getLast?.getD a := by
  induction vs with
  | nil => intro a _ _; rfl
  | cons w t ih =>
    intro a ha hall
    rw [List.foldl_cons, choose_value_of_not_keeps a w ha]
    have hw : keepsValue w = false := hall w (List.mem_cons_self w t)
    have ht : ∀ v ∈ t, keepsValue v = false := fun v hv => hall v (List.mem_cons_of_mem w hv)
    rw [ih w hw ht]
    cases t with
    | nil => rfl
    | cons x xs =>
      rw [List.getLast?_cons_cons]
      cases hg : (x :: xs).getLast? with
      | none => simp at hg
      | some y => rfl

/-- Unfolding one step of the merge loop. -/
theorem mergeLoop_cons (colMap : String → String) (kv : String × Value)
    (row acc : List (String × Value)) :
    mergeLoop colMap (kv :: row) acc =
      mergeLoop colMap row
        (setA acc (colMap kv.1)
          (choose_value ((getA acc (colMap kv.1)).getD .vnull) kv.2)) := rfl

/-- The lookup of a key after the merge loop is the merge fold of the
values of the source columns mapping to that key, continued from the
accumulator entry. -/
theorem getA_mergeLoop (colMap : String → String) (key : String) :
    ∀ (row : List (String × Value)) (acc : List (String × Value)),
    (getA (mergeLoop colMap row acc) key).getD .vnull =
      (valsFor colMap row key).foldl choose_value ((getA acc key).getD .vnull) := by
  intro row
  induction row with
  | nil => intro acc; rfl
  | cons kv t ih =>
    intro acc
    obtain ⟨k0, v0⟩ := kv
    rw [mergeLoop_cons]
    by_cases hk : colMap k0 = key
    · have hv : valsFor colMap ((k0, v0) :: t) key = v0 :: valsFor colMap t key := by
        simp [valsFor, List.filter_cons, hk]
      rw [hv, List.foldl_cons, ih]
      congr 1
      rw [hk, getA_setA_self]
      rfl
    · have hv : valsFor colMap ((k0, v0) :: t) key = valsFor colMap t key := by
        simp [valsFor, List.filter_cons, hk]
      rw [hv, ih, getA_setA_ne acc (colMap k0) _ key hk]

/-- A key is present after the merge loop exactly when it was present
before or some source column maps to it. -/
theorem memA_mergeLoop (colMap : String → String) (key : String) :
    ∀ (row : List (String × Value)) (acc : List (String × Value)),
    memA (mergeLoop colMap row acc) key =
      (memA acc key || row.any (fun kv => colMap kv.1 == key)) := by
  intro row
  induction row with
  | nil => intro acc; simp [mergeLoop]
  | cons kv t ih =>
    intro acc
    obtain ⟨k0, v0⟩ := kv
    rw [mergeLoop_cons, ih, memA_setA]
    by_cases hk : colMap k0 = key
    · simp [hk]
    · have hb : (colMap k0 == key) = false := by simp [hk]
      simp [hb]

/-- Filtering to the canonical headers preserves the lookup of a canonical
key. -/
theorem getA_filter_headers (H : List String) (l : List (String × Value)) (key : String)
    (h : H.contains key = true) :
    getA (l.filter (fun kv => H.contains kv.1)) key = getA l key := by
  induction l with
  | nil => rfl
  | cons kv t ih =>
    obtain ⟨k0, v0⟩ := kv
    rw [List.filter_cons]
    by_cases hc : H.contains k0 = true
    · rw [if_pos (by exact hc)]
      by_cases hk : k0 = key
      · subst hk
        simp [getA]
      · simp only [getA, if_neg hk, ih]
    · rw [if_neg (by exact hc)]
      by_cases hk : k0 = key
      · exact absurd (hk ▸ h) hc
      · rw [ih]
        simp only [getA, if_neg hk]

/-- For a canonical key already assigned by the merge loop, normalize_row
returns exactly the merged entry: the timestamp-derivation step never
overwrites a present key and the final projection keeps canonical keys. -/
theorem getA_normalize_row (colMap : String → String) (row : List (String × Value))
    (derive : Bool) (key : String)
    (hkey : EXPECTED_HEADERS.contains key = true)
    (hmem : memA (mergeLoop colMap row []) key = true) :
    getA (normalize_row colMap row derive) key = getA (mergeLoop colMap row []) key := by
  simp only [normalize_row]
  by_cases hts : key = "timestamp"
  · subst hts
    rw [if_neg (by simp [hmem])]
    exact getA_filter_headers _ _ _ hkey
  · have hne : ("timestamp" : String) ≠ key := fun h => hts h.symm
    split_ifs <;> rw [getA_filter_headers _ _ _ hkey] <;>
      first
        | rfl
        | rw [getA_setA_ne _ _ _ _ hne]

/-- A collision list of length at least two makes the key present after the
merge. -/
theorem memA_of_collision (colMap : String → String) (row : List (String × Value))
    (key : String)
    (hcoll : 2 ≤ (row.filter (fun kv => colMap kv.1 == key)).length) :
    memA (mergeLoop colMap row []) key = true := by
  rw [memA_mergeLoop]
  cases hf : row.filter (fun kv => colMap kv.1 == key) with
  | nil => rw [hf] at hcoll; simp at hcoll
  | cons x xs =>
    have hx : x ∈ row.filter (fun kv => colMap kv.1 == key) := by
      rw [hf]; exact List.mem_cons_self x xs
    have hmf := List.mem_filter.1 hx
    have : row.any (fun kv => colMap kv.1 == key) = true :=
      List.any_eq_true.2 ⟨x, hmf.1, hmf.2⟩
    simp [memA, getA, this]

/-- C5: when two or more source columns map to the same canonical target
key, normalize_row assigns that target the first value in source-column
order that is neither null nor an empty / whitespace-only string, whenever
such a value exists. -/
theorem spec_c5_first_non_empty (colMap : String → String) (row : List (String × Value))
    (key : String) (derive : Bool) (v : Value)
    (hkey : EXPECTED_HEADERS.contains key = true)
    (hcoll : 2 ≤ (row.filter (fun kv => colMap kv.1 == key)).length)
    (hfind : (valsFor colMap row key).find? keepsValue = some v) :
    getA (normalize_row colMap row derive) key = some v := by
  have hmem := memA_of_collision colMap row key hcoll
  rw [getA_normalize_row colMap row derive key hkey hmem]
  have hfold : (valsFor colMap row key).foldl choose_value .vnull = v :=
    foldl_choose_find _ .vnull rfl v hfind
  have hget := getA_mergeLoop colMap key row []
  simp only [getA, Option.getD_none] at hget
  cases hw : getA (mergeLoop colMap row []) key with
  | none =>
    unfold memA at hmem
    rw [hw] at hmem
    simp at hmem
  | some w =>
    rw [hw] at hget
    simp only [Option.getD_some] at hget
    rw [hget, hfold]

/-- C5 witness: two source columns both normalizing to client_id; the first
cell is empty, so the second, non-empty cell wins. -/
theorem spec_c5_witness :
    getA (normalize_row normalize_column_name
      [("clientId", .vstr ""), ("client_id", .vstr "abc")] false) "client_id" =
      some (.vstr "abc") :=
  spec_c5_first_non_empty normalize_column_name
    [("clientId", .vstr ""), ("client_id", .vstr "abc")] "client_id" false
    (.vstr "abc") (by decide) (by decide) rfl

/-- C10: when every source value for a collided target key is null or a
whitespace-only string, the merged value is the last source value in
column order (a later null replaces an earlier empty string). -/
theorem spec_c10_all_blank (colMap : String → String) (row : List (String × Value))
    (key : String) (derive : Bool) (vlast : Value)
    (hkey : EXPECTED_HEADERS.contains key = true)
    (hcoll : 2 ≤ (row.filter (fun kv => colMap kv.1 == key)).length)
    (hall : ∀ v ∈ valsFor colMap row key, keepsValue v = false)
    (hlast : (valsFor colMap row key).getLast? = some vlast) :
    getA (normalize_row colMap row derive) key = some vlast := by
  have hmem := memA_of_collision colMap row key hcoll
  rw [getA_normalize_row colMap row derive key hkey hmem]
  have hfold : (valsFor colMap row key).foldl choose_value .vnull =
      (valsFor colMap row key).getLast?.getD .vnull :=
    foldl_choose_all _ .vnull rfl hall
  rw [hlast] at hfold
  have hget := getA_mergeLoop colMap key row []
  simp only [getA, Option.getD_none] at hget
  cases hw : getA (mergeLoop colMap row []) key with
  | none =>
    unfold memA at hmem
    rw [hw] at hmem
    simp at hmem
  | some w =>
    rw [hw] at hget
    simp only [Option.getD_some] at hget
    rw [hget, hfold]
    rfl

/-- C10 witness: a whitespace-only first cell followed by a null second
cell for the same target; the merged value is the trailing null, not the
first value. -/
theorem spec_c10_witness :
    getA (normalize_row normalize_column_name
      [("clientId", .vstr " "), ("client_id", .vnull)] false) "client_id" =
      some .vnull :=
  spec_c10_all_blank normalize_column_name
    [("clientId", .vstr " "), ("client_id", .vnull)] "client_id" false
    .vnull (by decide) (by decide) (by decide) rfl

/-- dropWhile is idempotent. -/
theorem dropWhile_self {α : Type} (p : α → Bool) (l : List α) :
    (l.dropWhile p).dropWhile p = l.dropWhile p := by
  induction l with
  | nil => rfl
  | cons a t ih =>
    by_cases h : p a = true
    · rw [List.dropWhile_cons_of_pos h, ih]
    · rw [List.dropWhile_cons_of_neg (by simp_all), List.dropWhile_cons_of_neg (by simp_all)]

/-- The head of a non-empty dropWhile result fails the predicate. -/
theorem dropWhile_head_false {α : Type} (p : α → Bool) :
    ∀ (l : List α) (a : α) (t : List α), l.dropWhile p = a :: t → p a = false := by
  intro l
  induction l with
  | nil => intro a t h; simp [List.dropWhile] at h
  | cons b u ih =>
    intro a t h
    by_cases hb : p b = true
    · rw [List.dropWhile_cons_of_pos hb] at h
      exact ih a t h
    · rw [List.dropWhile_cons_of_neg (by simp_all)] at h
      cases h
      simp_all

/-- A list whose head fails the predicate is unchanged by dropWhile. -/
theorem dropWhile_eq_self_of_head {α : Type} (p : α → Bool) (l : List α)
    (h : ∀ a, l.head? = some a → p a = false) : l.dropWhile p = l := by
  cases l with
  | nil => rfl
  | cons a t => exact List.dropWhile_cons_of_neg (by simp [h a rfl])

/-- A non-empty dropWhile result keeps the last element of the list. -/
theorem dropWhile_getLast? {α : Type} (p : α → Bool) :
    ∀ (l : List α), l.dropWhile p ≠ [] → (l.dropWhile p).getLast? = l.getLast? := by
  intro l
  induction l with
  | nil => intro h; simp [List.dropWhile] at h
  | cons a t ih =>
    intro h
    by_cases ha : p a = true
    · rw [List.dropWhile_cons_of_pos ha] at h ⊢
      rw [ih h]
      cases t with
      | nil => simp [List.dropWhile] at h
      | cons b u => rw [List.getLast?_cons_cons]
    · rw [List.dropWhile_cons_of_neg (by simp_all)]

/-- Elements of a dropWhile result belong to the list. -/
theorem mem_of_mem_dropWhile {α : Type} (p : α → Bool) :
    ∀ (l : List α) (a : α), a ∈ l.dropWhile p → a ∈ l := by
  intro l
  induction l with
  | nil => intro a h; simp [List.dropWhile] at h
  | cons b u ih =>
    intro a h
    by_cases hb : p b = true
    · rw [List.dropWhile_cons_of_pos hb] at h
      exact List.mem_cons_of_mem b (ih a h)
    · rw [List.dropWhile_cons_of_neg (by simp_all)] at h
      exact h

/-- Elements of the stripped list belong to the original list. -/
theorem mem_of_mem_stripChars (l : List Char) (a : Char) (h : a ∈ stripChars l) :
    a ∈ l := by
  unfold stripChars at h
  rw [List.mem_reverse] at h
  have h2 := mem_of_mem_dropWhile isPySpace _ a h
  rw [List.mem_reverse] at h2
  exact mem_of_mem_dropWhile isPySpace l a h2

/-- stripChars is idempotent. -/
theorem stripChars_self (l : List Char) : stripChars (stripChars l) = stripChars l := by
  unfold stripChars
  set A := l.dropWhile isPySpace with hA
  set B := A.reverse.dropWhile isPySpace with hB
  cases hBe : B with
  | nil => simp [hBe]
  | cons c u =>
    have hBne : B ≠ [] := by rw [hBe]; exact List.cons_ne_nil c u
    have hAne : A ≠ [] := by
      intro hAnil
      apply hBne
      rw [hB, hAnil]
      rfl
    have hhead : ∀ a, B.reverse.head? = some a → isPySpace a = false := by
      intro a ha
      rw [List.head?_reverse] at ha
      rw [hB] at ha
      rw [dropWhile_getLast? isPySpace A.reverse (hB ▸ hBne)] at ha
      rw [List.getLast?_reverse] at ha
      obtain ⟨b, t, hbt⟩ : ∃ b t, A = b :: t := by
        cases hAl : A with
        | nil => exact absurd hAl hAne
        | cons b t => exact ⟨b, t, rfl⟩
      have hb : isPySpace b = false := dropWhile_head_false isPySpace l b t (hA ▸ hbt)
      rw [hbt] at ha
      simp only [List.head?_cons, Option.some.injEq] at ha
      rw [← ha]
      exact hb
    rw [← hBe]
    rw [dropWhile_eq_self_of_head isPySpace B.reverse hhead]
    rw [List.reverse_reverse]
    rw [hB, dropWhile_self]

/-- sanitize_header is idempotent. -/
theorem sanitize_header_idem (s : String) :
    sanitize_header (sanitize_header s) = sanitize_header s := by
  have hfix : (stripChars (s.data.filter (fun c => !(c == '\uFEFF')))).filter
      (fun c => !(c == '\uFEFF')) = stripChars (s.data.filter (fun c => !(c == '\uFEFF'))) := by
    apply List.filter_eq_self.2
    intro a ha
    have h2 : a ∈ s.data.filter (fun c => !(c == '\uFEFF')) :=
      mem_of_mem_stripChars _ a ha
    exact (List.mem_filter.1 h2).2
  show String.mk (stripChars ((stripChars (s.data.filter (fun c => !(c == '\uFEFF')))).filter
    (fun c => !(c == '\uFEFF')))) = String.mk (stripChars (s.data.filter (fun c => !(c == '\uFEFF'))))
  rw [hfix, stripChars_self]

/-- Every ncn_core output is a canonical name or the input itself. -/
theorem ncn_core_cases (raw : String) :
    ncn_core raw = "client_id" ∨ ncn_core raw = "event_name" ∨
    ncn_core raw = "event_data" ∨ ncn_core raw = "page_url" ∨
    ncn_core raw = "user_agent" ∨ ncn_core raw = "referrer" ∨
    ncn_core raw = "timestamp" ∨ ncn_core raw = "date" ∨
    ncn_core raw = "time" ∨ ncn_core raw = raw := by
  simp only [ncn_core]
  split_ifs <;> simp

/-- C9: every casing / surrounding-spacing variant of a known alias (a
header whose sanitized, lower-cased form equals the alias) is mapped by
normalize_column_name to the same canonical column name, and
normalize_column_name is idempotent on every input. -/
theorem spec_c9_aliases :
    (∀ s al canon, (al, canon) ∈ known_aliases →
      pyLower (sanitize_header s) = al → normalize_column_name s = canon) ∧
    (∀ s, normalize_column_name (normalize_column_name s) =
      normalize_column_name s) := by
  constructor
  · intro s al canon hmem hlow
    simp only [known_aliases, List.mem_cons, List.not_mem_nil, or_false,
      Prod.mk.injEq] at hmem
    obtain h1 | h2 | h3 | h4 | h5 | h6 | h7 | h8 | h9 | h10 | h11 | h12 | h13 | h14 := hmem
    · obtain ⟨rfl, rfl⟩ := h1
      simp only [normalize_column_name, ncn_core]
      rw [if_pos (Or.inl hlow)]
    · obtain ⟨rfl, rfl⟩ := h2
      simp only [normalize_column_name, ncn_core]
      rw [if_pos (Or.inr (Or.inl hlow))]
    · obtain ⟨rfl, rfl⟩ := h3
      simp only [normalize_column_name, ncn_core]
      rw [if_neg (by rintro (h | h | h) <;> exact absurd (hlow.symm.trans (by first | exact h | exact congrArg pyLower h)) (by decide)),
          if_pos (Or.inl hlow)]
    · obtain ⟨rfl, rfl⟩ := h4
      simp only [normalize_column_name, ncn_core]
      rw [if_neg (by rintro (h | h | h) <;> exact absurd (hlow.symm.trans (by first | exact h | exact congrArg pyLower h)) (by decide)),
          if_pos (Or.inr (Or.inl hlow))]
    · obtain ⟨rfl, rfl⟩ := h5
      simp only [normalize_column_name, ncn_core]
      rw [if_neg (by rintro (h | h | h) <;> exact absurd (hlow.symm.trans (by first | exact h | exact congrArg pyLower h)) (by decide)),
          if_neg (by rintro (h | h | h) <;> exact absurd (hlow.symm.trans (by first | exact h | exact congrArg pyLower h)) (by decide)),
          if_pos (Or.inl hlow)]
    · obtain ⟨rfl, rfl⟩ := h6
      simp only [normalize_column_name, ncn_core]
      rw [if_neg (by rintro (h | h | h) <;> exact absurd (hlow.symm.trans (by first | exact h | exact congrArg pyLower h)) (by decide)),
          if_neg (by rintro (h | h | h) <;> exact absurd (hlow.symm.trans (by first | exact h | exact congrArg pyLower h)) (by decide)),
          if_pos (Or.inr (Or.inl hlow))]
    · obtain ⟨rfl, rfl⟩ := h7
      simp only [normalize_column_name, ncn_core]
      rw [if_neg (by rintro (h | h | h) <;> exact absurd (hlow.symm.trans (by first | exact h | exact congrArg pyLower h)) (by decide)),
          if_neg (by rintro (h | h | h) <;> exact absurd (hlow.symm.trans (by first | exact h | exact congrArg pyLower h)) (by decide)),
          if_neg (by rintro (h | h | h) <;> exact absurd (hlow.symm.trans (by first | exact h | exact congrArg pyLower h)) (by decide)),
          if_pos (Or.inl hlow)]
    · obtain ⟨rfl, rfl⟩ := h8
      simp only [normalize_column_name, ncn_core]
      rw [if_neg (by rintro (h | h | h) <;> exact absurd (hlow.symm.trans (by first | exact h | exact congrArg pyLower h)) (by decide)),
          if_neg (by rintro (h | h | h) <;> exact absurd (hlow.symm.trans (by first | exact h | exact congrArg pyLower h)) (by decide)),
          if_neg (by rintro (h | h | h) <;> exact absurd (hlow.symm.trans (by first | exact h | exact congrArg pyLower h)) (by decide)),
          if_pos (Or.inr (Or.inl hlow))]
    · obtain ⟨rfl, rfl⟩ := h9
      simp only [normalize_column_name, ncn_core]
      rw [if_neg (by rintro (h | h | h) <;> exact absurd (hlow.symm.trans (by first | exact h | exact congrArg pyLower h)) (by decide)),
          if_neg (by rintro (h | h | h) <;> exact absurd (hlow.symm.trans (by first | exact h | exact congrArg pyLower h)) (by decide)),
          if_neg (by rintro (h | h | h) <;> exact absurd (hlow.symm.trans (by first | exact h | exact congrArg pyLower h)) (by decide)),
          if_neg (by rintro (h | h | h) <;> exact absurd (hlow.symm.trans (by first | exact h | exact congrArg pyLower h)) (by decide)),
          if_pos (Or.inl hlow)]
    · obtain ⟨rfl, rfl⟩ := h10
      simp only [normalize_column_name, ncn_core]
      rw [if_neg (by rintro (h | h | h) <;> exact absurd (hlow.symm.trans (by first | exact h | exact congrArg pyLower h)) (by decide)),
          if_neg (by rintro (h | h | h) <;> exact absurd (hlow.symm.trans (by first | exact h | exact congrArg pyLower h)) (by decide)),
          if_neg (by rintro (h | h | h) <;> exact absurd (hlow.symm.trans (by first | exact h | exact congrArg pyLower h)) (by decide)),
          if_neg (by rintro (h | h | h) <;> exact absurd (hlow.symm.trans (by first | exact h | exact congrArg pyLower h)) (by decide)),
          if_pos (Or.inr (Or.inl hlow))]
    · obtain ⟨rfl, rfl⟩ := h11
      simp only [normalize_column_name, ncn_core]
      rw [if_neg (by rintro (h | h | h) <;> exact absurd (hlow.symm.trans (by first | exact h | exact congrArg pyLower h)) (by decide)),
          if_neg (by rintro (h | h | h) <;> exact absurd (hlow.symm.trans (by first | exact h | exact congrArg pyLower h)) (by decide)),
          if_neg (by rintro (h | h | h) <;> exact absurd (hlow.symm.trans (by first | exact h | exact congrArg pyLower h)) (by decide)),
          if_neg (by rintro (h | h | h) <;> exact absurd (hlow.symm.trans (by first | exact h | exact congrArg pyLower h)) (by decide)),
          if_neg (by rintro (h | h | h) <;> exact absurd (hlow.symm.trans (by first | exact h | exact congrArg pyLower h)) (by decide)),
          if_pos (hlow)]
    · obtain ⟨rfl, rfl⟩ := h12
      simp only [normalize_column_name, ncn_core]
      rw [if_neg (by rintro (h | h | h) <;> exact absurd (hlow.symm.trans (by first | exact h | exact congrArg pyLower h)) (by decide)),
          if_neg (by rintro (h | h | h) <;> exact absurd (hlow.symm.trans (by first | exact h | exact congrArg pyLower h)) (by decide)),
          if_neg (by rintro (h | h | h) <;> exact absurd (hlow.symm.trans (by first | exact h | exact congrArg pyLower h)) (by decide)),
          if_neg (by rintro (h | h | h) <;> exact absurd (hlow.symm.trans (by first | exact h | exact congrArg pyLower h)) (by decide)),
          if_neg (by rintro (h | h | h) <;> exact absurd (hlow.symm.trans (by first | exact h | exact congrArg pyLower h)) (by decide)),
          if_neg (by intro h; exact absurd (hlow.symm.trans h) (by decide)),
          if_pos (hlow)]
    · obtain ⟨rfl, rfl⟩ := h13
      simp only [normalize_column_name, ncn_core]
      rw [if_neg (by rintro (h | h | h) <;> exact absurd (hlow.symm.trans (by first | exact h | exact congrArg pyLower h)) (by decide)),
          if_neg (by rintro (h | h | h) <;> exact absurd (hlow.symm.trans (by first | exact h | exact congrArg pyLower h)) (by decide)),
          if_neg (by rintro (h | h | h) <;> exact absurd (hlow.symm.trans (by first | exact h | exact congrArg pyLower h)) (by decide)),
          if_neg (by rintro (h | h | h) <;> exact absurd (hlow.symm.trans (by first | exact h | exact congrArg pyLower h)) (by decide)),
          if_neg (by rintro (h | h | h) <;> exact absurd (hlow.symm.trans (by first | exact h | exact congrArg pyLower h)) (by decide)),
          if_neg (by intro h; exact absurd (hlow.symm.trans h) (by decide)),
          if_neg (by intro h; exact absurd (hlow.symm.trans h) (by decide)),
          if_pos (hlow)]
    · obtain ⟨rfl, rfl⟩ := h14
      simp only [normalize_column_name, ncn_core]
      rw [if_neg (by rintro (h | h | h) <;> exact absurd (hlow.symm.trans (by first | exact h | exact congrArg pyLower h)) (by decide)),
          if_neg (by rintro (h | h | h) <;> exact absurd (hlow.symm.trans (by first | exact h | exact congrArg pyLower h)) (by decide)),
          if_neg (by rintro (h | h | h) <;> exact absurd (hlow.symm.trans (by first | exact h | exact congrArg pyLower h)) (by decide)),
          if_neg (by rintro (h | h | h) <;> exact absurd (hlow.symm.trans (by first | exact h | exact congrArg pyLower h)) (by decide)),
          if_neg (by rintro (h | h | h) <;> exact absurd (hlow.symm.trans (by first | exact h | exact congrArg pyLower h)) (by decide)),
          if_neg (by intro h; exact absurd (hlow.symm.trans h) (by decide)),
          if_neg (by intro h; exact absurd (hlow.symm.trans h) (by decide)),
          if_neg (by intro h; exact absurd (hlow.symm.trans h) (by decide)),
          if_pos (hlow)]
  · intro s
    show ncn_core (sanitize_header (ncn_core (sanitize_header s))) =
      ncn_core (sanitize_header s)
    rcases ncn_core_cases (sanitize_header s) with h | h | h | h | h | h | h | h | h | h <;>
      rw [h] <;>
      first
        | decide
        | (rw [sanitize_header_idem]; exact h)

/-- C9 witness: the concrete variant header ClientID (with surrounding
spaces) maps to client_id, and re-normalizing an unrecognized header is a
no-op. -/
theorem spec_c9_witness :
    normalize_column_name " ClientID " = "client_id" ∧
    normalize_column_name (normalize_column_name "weird Col") =
      normalize_column_name "weird Col" :=
  ⟨spec_c9_aliases.1 " ClientID " "clientid" "client_id" (by decide) (by decide),
   spec_c9_aliases.2 "weird Col"⟩

/-- Membership in a sorted insertion. -/
theorem mem_insertSorted (x y : String) (l : List String) :
    y ∈ insertSorted x l ↔ (y = x ∨ y ∈ l) := by
  induction l with
  | nil => simp [insertSorted]
  | cons z t ih =>
    unfold insertSorted
    by_cases h : strLe x z = true
    · simp [h]
    · simp only [if_neg h, List.mem_cons, ih]
      tauto

/-- Sorting preserves membership. -/
theorem mem_pySorted (l : List String) (y : String) : y ∈ pySorted l ↔ y ∈ l := by
  induction l with
  | nil => simp [pySorted]
  | cons x t ih =>
    show y ∈ insertSorted x (pySorted t) ↔ _
    rw [mem_insertSorted]
    simp [ih]

/-- Membership after a set add. -/
theorem mem_pySetAdd (l : List String) (x y : String) :
    y ∈ pySetAdd l x ↔ (y ∈ l ∨ y = x) := by
  unfold pySetAdd
  by_cases h : l.contains x = true
  · rw [if_pos h]
    have hx : x ∈ l := List.elem_iff.1 h
    constructor
    · exact Or.inl
    · rintro (hy | rfl)
      · exact hy
      · exact hx
  · rw [if_neg h]
    simp

/-- Membership after a set discard. -/
theorem mem_pySetDiscard (l : List String) (x y : String) :
    y ∈ pySetDiscard l x ↔ (y ∈ l ∧ y ≠ x) := by
  simp [pySetDiscard, List.mem_filter]

/-- Membership in the set built from a list. -/
theorem mem_pySetOfList_aux (l : List String) :
    ∀ (acc : List String) (y : String),
    y ∈ l.foldl pySetAdd acc ↔ (y ∈ acc ∨ y ∈ l) := by
  induction l with
  | nil => intro acc y; simp
  | cons x t ih =>
    intro acc y
    show y ∈ t.foldl pySetAdd (pySetAdd acc x) ↔ _
    rw [ih, mem_pySetAdd]
    simp [List.mem_cons]
    tauto

/-- Membership in the set built from a list. -/
theorem mem_pySetOfList (l : List String) (y : String) :
    y ∈ pySetOfList l ↔ y ∈ l := by
  rw [pySetOfList, mem_pySetOfList_aux]
  simp

/-- Bool to Prop bridge for list containment. -/
theorem contains_eq_true (l : List String) (a : String) : l.contains a = true ↔ a ∈ l :=
  List.elem_iff

/-- Bool to Prop bridge for list non-containment. -/
theorem contains_eq_false (l : List String) (a : String) : l.contains a = false ↔ ¬ a ∈ l := by
  rw [← contains_eq_true]
  cases h : l.contains a <;> simp_all

/-- Row-level timestamp derivation: if exactly one source column maps to
date with a non-empty string cell, exactly one maps to time with a
non-empty string cell, and none maps to timestamp, then the normalized row
carries the derived timestamp string date-space-time. -/
theorem derive_timestamp_row (row : List (String × Value)) (d tm : String)
    (hvd : valsFor normalize_column_name row "date" = [.vstr d])
    (hvt : valsFor normalize_column_name row "time" = [.vstr tm])
    (hts : row.any (fun kv => normalize_column_name kv.1 == "timestamp") = false)
    (hd : d ≠ "") (htm : tm ≠ "") :
    getA (normalize_row normalize_column_name row true) "timestamp" =
      some (.vstr (d ++ " " ++ tm)) := by
  have hmemTs : memA (mergeLoop normalize_column_name row []) "timestamp" = false := by
    rw [memA_mergeLoop]
    simp [memA, getA, hts]
  have hdate : (getA (mergeLoop normalize_column_name row []) "date").getD .vnull = .vstr d := by
    rw [getA_mergeLoop]
    simp only [getA, Option.getD_none]
    rw [hvd]
    rfl
  have htime : (getA (mergeLoop normalize_column_name row []) "time").getD .vnull = .vstr tm := by
    rw [getA_mergeLoop]
    simp only [getA, Option.getD_none]
    rw [hvt]
    rfl
  simp only [normalize_row]
  rw [if_pos (by rw [hmemTs]; rfl)]
  rw [hdate, htime]
  rw [if_pos (by simp [pyTruthy, hd, htm])]
  rw [getA_filter_headers _ _ _ (by decide), getA_setA_self]
  rfl

/-- C6: for a file whose normalized headers include both date and time but
not timestamp, the reported effective header set contains timestamp and
neither date nor time; the normalized rows are exactly the rows of the file
normalized with derivation enabled; and every such row whose unique date
and time cells are non-empty strings gets the derived timestamp value
date-space-time. -/
theorem spec_c6_date_time (raw_headers : List String) (cells : List (List Value))
    (hD : ((raw_headers.map sanitize_header).map normalize_column_name).contains "date" = true)
    (hT : ((raw_headers.map sanitize_header).map normalize_column_name).contains "time" = true)
    (hTs : ((raw_headers.map sanitize_header).map normalize_column_name).contains "timestamp" = false) :
    ((iter_csv_rows raw_headers cells).2.normalized_headers.contains "timestamp" = true ∧
     (iter_csv_rows raw_headers cells).2.normalized_headers.contains "date" = false ∧
     (iter_csv_rows raw_headers cells).2.normalized_headers.contains "time" = false) ∧
    (iter_csv_rows raw_headers cells).1 =
      cells.map (fun c => normalize_row normalize_column_name
        ((raw_headers.map sanitize_header).zip c) true) ∧
    (∀ c ∈ cells, ∀ d tm : String,
      valsFor normalize_column_name ((raw_headers.map sanitize_header).zip c) "date" =
        [.vstr d] →
      valsFor normalize_column_name ((raw_headers.map sanitize_header).zip c) "time" =
        [.vstr tm] →
      d ≠ "" → tm ≠ "" →
      getA (normalize_row normalize_column_name
        ((raw_headers.map sanitize_header).zip c) true) "timestamp" =
        some (.vstr (d ++ " " ++ tm))) := by
  refine ⟨⟨?_, ?_, ?_⟩, ?_, ?_⟩
  · simp only [iter_csv_rows]
    rw [hD, hT, hTs]
    simp only [Bool.not_false, Bool.and_self, Bool.true_and, Bool.and_true, Bool.not_true,
      Bool.false_and, Bool.and_false, if_false, if_true, ite_self]
    rw [contains_eq_true, mem_pySorted, mem_pySetDiscard, mem_pySetDiscard, mem_pySetAdd]
    exact ⟨⟨Or.inr rfl, by decide⟩, by decide⟩
  · simp only [iter_csv_rows]
    rw [hD, hT, hTs]
    simp only [Bool.not_false, Bool.and_self, Bool.true_and, Bool.and_true, Bool.not_true,
      Bool.false_and, Bool.and_false, if_false, if_true, ite_self]
    rw [contains_eq_false, mem_pySorted, mem_pySetDiscard, mem_pySetDiscard, mem_pySetAdd]
    simp
  · simp only [iter_csv_rows]
    rw [hD, hT, hTs]
    simp only [Bool.not_false, Bool.and_self, Bool.true_and, Bool.and_true, Bool.not_true,
      Bool.false_and, Bool.and_false, if_false, if_true, ite_self]
    rw [contains_eq_false, mem_pySorted, mem_pySetDiscard, mem_pySetDiscard, mem_pySetAdd]
    simp
  · simp only [iter_csv_rows]
    rw [hD, hT, hTs]
    simp only [Bool.not_false, Bool.and_self, Bool.true_and, Bool.and_true, Bool.not_true,
      Bool.false_and, Bool.and_false, if_false, if_true, ite_self, rename_target,
      List.map_map]
    simp [Function.comp]
  · intro c _hc d tm hvd hvt hd htm
    have hany : ((raw_headers.map sanitize_header).zip c).any
        (fun kv => normalize_column_name kv.1 == "timestamp") = false := by
      by_contra hA
      rw [Bool.not_eq_false] at hA
      obtain ⟨kv, hkv, hkveq⟩ := List.any_eq_true.1 hA
      obtain ⟨k, v⟩ := kv
      have h1 : k ∈ raw_headers.map sanitize_header := (List.of_mem_zip hkv).1
      have h2 : normalize_column_name k ∈
          (raw_headers.map sanitize_header).map normalize_column_name :=
        List.mem_map_of_mem _ h1
      have h3 : "timestamp" ∈ (raw_headers.map sanitize_header).map normalize_column_name :=
        eq_of_beq hkveq ▸ h2
      rw [contains_eq_false] at hTs
      exact hTs h3
    exact derive_timestamp_row _ d tm hvd hvt hany hd htm

/-- C6 witness: a concrete file with Date and Time columns and no
timestamp column: the reported header set gains timestamp and loses date
and time, and the row derives the combined timestamp string. -/
theorem spec_c6_witness :
    ((iter_csv_rows ["Date", "Time", "client_id"]
        [[.vstr "2024-01-02", .vstr "03:04:05", .vstr "c1"]]).2.normalized_headers.contains
      "timestamp" = true ∧
     (iter_csv_rows ["Date", "Time", "client_id"]
        [[.vstr "2024-01-02", .vstr "03:04:05", .vstr "c1"]]).2.normalized_headers.contains
      "date" = false ∧
     (iter_csv_rows ["Date", "Time", "client_id"]
        [[.vstr "2024-01-02", .vstr "03:04:05", .vstr "c1"]]).2.normalized_headers.contains
      "time" = false) ∧
    getA (normalize_row normalize_column_name
        ((["Date", "Time", "client_id"].map sanitize_header).zip
          [.vstr "2024-01-02", .vstr "03:04:05", .vstr "c1"]) true) "timestamp" =
      some (.vstr "2024-01-02 03:04:05") :=
  have H := spec_c6_date_time ["Date", "Time", "client_id"]
    [[.vstr "2024-01-02", .vstr "03:04:05", .vstr "c1"]]
    (by decide) (by decide) (by decide)
  ⟨H.1, H.2.2 [.vstr "2024-01-02", .vstr "03:04:05", .vstr "c1"]
    (List.mem_cons_self _ _) "2024-01-02" "03:04:05" rfl rfl (by decide) (by decide)⟩

/-- C8: the error_reason of a row failing validation on multiple fields is
the join, with the fixed separator, of one summarised message per collected
field error; the errors are collected per field, in field order, with no
cross-field short-circuiting; and each message carries its dotted location
prefix exactly when the location is non-empty. -/
theorem spec_c8_error_reason (fromiso : String → Option ℚ)
    (pd_str : String → Except String ℚ) (loads : String → Except String Value)
    (row : List (String × Value)) (errs : List FieldError)
    (h : model_validate fromiso pd_str loads row = .ok (.error errs))
    (hmulti : ∃ e1 ∈ errs, ∃ e2 ∈ errs, e1.1 ≠ e2.1) :
    (∃ tres, timestamp_field fromiso pd_str row = .ok tres ∧
      errs = errsOf (required_str_field row "client_id") ++ errsOf tres ++
        errsOf (event_name_field row) ++ errsOf (event_data_field loads row) ++
        errsOf (required_str_field row "page_url") ++ errsOf (referrer_field row) ++
        errsOf (required_str_field row "user_agent")) ∧
    error_reason errs = String.intercalate " | " (errs.map summarize_error) ∧
    (∀ e ∈ errs, summarize_error e =
      if String.intercalate "." e.1 = "" then e.2
      else String.intercalate "." e.1 ++ ": " ++ e.2) := by
  refine ⟨?_, rfl, fun e _ => rfl⟩
  unfold model_validate at h
  cases ht : timestamp_field fromiso pd_str row with
  | error m =>
    rw [ht] at h
    simp [Bind.bind, Except.bind] at h
  | ok tres =>
    rw [ht] at h
    simp only [Bind.bind, Except.bind] at h
    refine ⟨tres, rfl, ?_⟩
    split at h
    · simp [pure, Except.pure] at h
    · simp only [pure, Except.pure, Except.ok.injEq, Except.error.injEq] at h
      exact h.symm

/-- C8 witness: a concrete row failing both client_id and timestamp
validation; the error_reason joins the two field-prefixed messages with
the fixed separator. -/
theorem spec_c8_witness :
    error_reason [(["client_id"], "Value error, required field is empty"),
                  (["timestamp"], "Value error, timestamp is null")] =
      "client_id: Value error, required field is empty | timestamp: Value error, timestamp is null" :=
  have H := spec_c8_error_reason sample_fromiso sample_pd_str sample_loads
    [("client_id", .vstr " "), ("timestamp", .vnull), ("event_name", .vstr "purchase"),
     ("event_data", .vstr ""), ("page_url", .vstr "u"), ("user_agent", .vstr "ua")]
    [(["client_id"], "Value error, required field is empty"),
     (["timestamp"], "Value error, timestamp is null")]
    rfl
    ⟨(["client_id"], "Value error, required field is empty"), by simp,
     (["timestamp"], "Value error, timestamp is null"), by simp, by simp⟩
  H.2.1.trans rfl
